/-
Verification of the chat client's conversation-synchronization core against
its natural-language specification.

The development shallowly embeds the relevant program logic:

* `addMessageIfNew` / the message-list invariants of the ChatWindow
  realtime handler (ChatWindow variant with dedupe, the one the spec
  describes: it also untracks presence and clears typing state);
* `createChat` of NewChatModal (the variant with the existing-conversation
  search and race reconciliation);
* the debounced typing-broadcast timer of `handleTyping`, modelled with an
  explicit environment of scheduled timers so that timer cancellation
  (clearTimeout) is represented faithfully;
* the typing-broadcast handler, `sendMessage` and `handleFileUpload`.

Identifiers in the source are opaque uuid strings; where an order on ids
matters (the spec's tie-break discussion) they are modelled as naturals,
standing for the strings with their lexicographic order.  Timestamps
(`created_at`, compared in the source via `new Date(...).getTime()`) are
modelled as naturals (milliseconds).
-/
import Mathlib

namespace ChatApp

/-! ### Data model (src types: Message, Attachment) -/

/-- An attachment descriptor, as built by `handleFileUpload`. -/
structure Attachment where
  name : String
  url : String
  type : String
  size : Nat
deriving DecidableEq, Repr

/-- A message row as delivered by history fetches and row-insert
notifications.  `id` models the uuid string (with its total order),
`created_at` the timestamp in milliseconds. -/
structure Message where
  id : Nat
  conversation_id : Nat
  sender_id : Nat
  content : Option String
  created_at : Nat
deriving DecidableEq, Repr

/-- The comparator used by `addMessageIfNew`'s re-sort: the source sorts by
`new Date(a.created_at).getTime() - new Date(b.created_at).getTime()` only,
i.e. by created timestamp, with no tie-break. -/
def createdLe (a b : Message) : Prop := a.created_at ≤ b.created_at

instance : DecidableRel createdLe := fun _ _ => Nat.decLe _ _

instance : IsTotal Message createdLe := ⟨fun _ _ => Nat.le_total _ _⟩

instance : IsTrans Message createdLe := ⟨fun _ _ _ => Nat.le_trans⟩

/-- ChatWindow `addMessageIfNew`: if a message with the incoming id is
already present the list is unchanged; otherwise the message is appended
and the list re-sorted (stably, as JS `Array.prototype.sort` is stable) by
created timestamp.  The accumulator comes first so the handler can be
iterated with `List.foldl`. -/
def addMessageIfNew (prev : List Message) (msg : Message) : List Message :=
  if prev.any (fun m => m.id == msg.id) then prev
  else List.insertionSort createdLe (prev ++ [msg])

/-- The message list obtained by delivering a sequence of row-insert
notifications to an initially empty ChatWindow. -/
def deliverAll (msgs : List Message) : List Message :=
  List.foldl addMessageIfNew [] msgs

/-- The ordering the specification asserts: (created timestamp, id)
lexicographically ascending. -/
def leCreatedId (a b : Message) : Bool :=
  a.created_at < b.created_at || (a.created_at == b.created_at && a.id ≤ b.id)

/-- Whether a list is sorted by (created timestamp, id) ascending. -/
def sortedByCreatedId : List Message → Bool
  | a :: b :: rest => leCreatedId a b && sortedByCreatedId (b :: rest)
  | _ => true

/-! ### NewChatModal: createChat (find-or-create direct conversation) -/

/-- A row of the profiles table, as selected by the target-email lookup. -/
structure Profile where
  id : String
  email : String
deriving DecidableEq, Repr

/-- A row of conversation_participants as returned by the search query. -/
structure ParticipantRow where
  conversation_id : String
  user_id : String
deriving DecidableEq, Repr

/-- Conversation ids in first-occurrence order: the iteration order of JS
Object.keys over the counts accumulator built by the reduce. -/
def convKeys : List ParticipantRow → List String
  | [] => []
  | r :: rs => r.conversation_id :: (convKeys rs).filter (fun c => c != r.conversation_id)

/-- Number of fetched participant rows carrying the given conversation id
(the value stored in the counts accumulator). -/
def countRows (parts : List ParticipantRow) (cid : String) : Nat :=
  (parts.filter (fun r => r.conversation_id == cid)).length

/-- Object.keys(counts).find(cid counts[cid] === 2): the first conversation
id with exactly two matching participant rows, if any. -/
def findExisting (parts : List ParticipantRow) : Option String :=
  (convKeys parts).find? (fun cid => countRows parts cid == 2)

/-- The responses of the backend collaborator consumed by one run of
createChat, in call order: profile lookup, participant search, conversation
insert (maybeSingle, hence an optional id), participant insert (none means
success), and the re-run participant search used after an insert failure. -/
structure Backend where
  profile : Except String (Option Profile)
  parts : Except String (List ParticipantRow)
  convInsert : Except String (Option String)
  partInsert : Option String
  parts2 : Except String (List ParticipantRow)

/-- Observable outcome of a createChat run: the conversation id handed to
onCreated (or the surfaced error), and whether the conversation-row insert
and the participant-rows insert were issued. -/
structure CreateOutcome where
  result : Except String String
  convInserted : Bool
  partsInsertAttempted : Bool
deriving Repr

/-- The email normalization of NewChatModal, raw.trim().toLowerCase(),
written over the character list so that it is kernel-executable. -/
def normalizeEmail (raw : String) : String :=
  String.mk (((raw.data.dropWhile Char.isWhitespace).reverse.dropWhile
    Char.isWhitespace).reverse.map Char.toLower)

/-- NewChatModal createChat (the variant with the existing-conversation
search): normalize the email, look up the target profile, reject self,
search for a conversation with exactly two matching participant rows and
reuse it, otherwise create a conversation and insert the two participant
links; on participant-insert failure re-run the search and reuse a found
conversation, else surface the insert error. -/
def createChat (currentUserId : String) (email : String) (b : Backend) : CreateOutcome :=
  let targetEmail := normalizeEmail email
  if targetEmail = "" then ⟨.error "Please enter a valid email.", false, false⟩
  else
    match b.profile with
    | .error e => ⟨.error e, false, false⟩
    | .ok none => ⟨.error "User not found.", false, false⟩
    | .ok (some profile) =>
      if profile.id = currentUserId then
        ⟨.error "You can not start a chat with yourself.", false, false⟩
      else
        match b.parts with
        | .error e => ⟨.error e, false, false⟩
        | .ok parts =>
          match findExisting parts with
          | some cid => ⟨.ok cid, false, false⟩
          | none =>
            match b.convInsert with
            | .error e => ⟨.error e, false, false⟩
            | .ok none => ⟨.error "Failed to create conversation (no id returned).", false, false⟩
            | .ok (some convId) =>
              match b.partInsert with
              | none => ⟨.ok convId, true, true⟩
              | some insertErr =>
                match b.parts2 with
                | .error e2 => ⟨.error e2, true, true⟩
                | .ok parts2 =>
                  match findExisting parts2 with
                  | some cid2 => ⟨.ok cid2, true, true⟩
                  | none => ⟨.error insertErr, true, true⟩

/-! ### handleTyping: debounced typing-false broadcast

The source keeps a single ref slot (`typingTimeoutRef`); every keystroke
first clears the referenced timeout (if any) and then schedules a fresh
2000 ms timeout that broadcasts typing=false.  To make cancellation
faithful the model keeps an explicit environment of scheduled timers
(id, fire time); clearTimeout on an id that already fired or never existed
is a no-op, exactly as in JS.  A timer whose fire time has been reached is
delivered before the next keystroke is handled, so a quiet gap of exactly
2000 ms does produce a typing=false broadcast. -/

/-- The timer environment of one ChatWindow instance: pending timeouts,
the id stored in `typingTimeoutRef`, a fresh-id counter, and the times at
which typing=false broadcasts were emitted, in order. -/
structure TimerEnv where
  timers : List (Nat × Nat)
  refSlot : Option Nat
  nextId : Nat
  emitted : List Nat
deriving DecidableEq, Repr

/-- Deliver every pending timeout whose fire time has been reached. -/
def fireDue (t : Nat) (s : TimerEnv) : TimerEnv :=
  { s with
    timers := s.timers.filter (fun p => decide (t < p.2)),
    emitted := s.emitted ++ (s.timers.filter (fun p => decide (p.2 ≤ t))).map (fun p => p.2) }

/-- clearTimeout(typingTimeoutRef.current): drops the referenced timeout
if it is still pending, otherwise does nothing. -/
def clearSlot (s : TimerEnv) : TimerEnv :=
  match s.refSlot with
  | none => s
  | some i => { s with timers := s.timers.filter (fun p => decide (p.1 ≠ i)) }

/-- One keystroke at time t: due timers fire first, then handleTyping
clears the slot and schedules a new typing=false timeout at t + 2000,
storing its id in the ref. -/
def keystroke (t : Nat) (s : TimerEnv) : TimerEnv :=
  let s1 := clearSlot (fireDue t s)
  { s1 with
    timers := s1.timers ++ [(s1.nextId, t + 2000)],
    refSlot := some s1.nextId,
    nextId := s1.nextId + 1 }

/-- End of the timeline: every still-pending timeout eventually fires. -/
def flushAll (s : TimerEnv) : TimerEnv :=
  { s with timers := [], emitted := s.emitted ++ s.timers.map (fun p => p.2) }

/-- Freshly mounted ChatWindow: no timer pending, empty ref slot. -/
def initEnv : TimerEnv := ⟨[], none, 0, []⟩

/-- Process a whole keystroke timeline and let the last timer fire. -/
def runTyping (ks : List Nat) : TimerEnv :=
  flushAll (List.foldl (fun s t => keystroke t s) initEnv ks)

/-- Modelled from the spec words: one typing=false broadcast, 2000 ms after
the last keystroke of every quiet period of at least 2000 ms.  Used as the
declarative side of the debounce claim. -/
def quietEmissions : List Nat → List Nat
  | [] => []
  | [t] => [t + 2000]
  | t :: t2 :: ts =>
    if t + 2000 ≤ t2 then (t + 2000) :: quietEmissions (t2 :: ts)
    else quietEmissions (t2 :: ts)

/-- The single-slot discipline: every pending timeout is the one whose id
the ref slot holds, so at most one typing=false emission is ever pending. -/
def timersOk (s : TimerEnv) : Prop :=
  s.timers = [] ∨ ∃ i ft, s.refSlot = some i ∧ s.timers = [(i, ft)]

/-! ### ChatWindow broadcast typing handler -/

/-- Payload of a broadcast tagged typing. -/
structure TypingEvent where
  user_id : String
  isTyping : Bool
deriving DecidableEq, Repr

/-- The typing-broadcast handler of ChatWindow: self-originated or
id-less payloads are ignored (the source guards with a JS falsiness check,
modelled as the empty string); otherwise the sender id is first removed
from the set, then appended when the flag is true. -/
def onTypingBroadcast (currentUserId : String) (prev : List String)
    (ev : TypingEvent) : List String :=
  if ev.user_id = "" ∨ ev.user_id = currentUserId then prev
  else
    let others := prev.filter (fun i => i != ev.user_id)
    if ev.isTyping then others ++ [ev.user_id] else others

/-! ### Composer: sendMessage and handleFileUpload -/

/-- JS String.prototype.trim over the character list, kernel-executable. -/
def trimWS (s : String) : String :=
  String.mk ((s.data.dropWhile Char.isWhitespace).reverse.dropWhile
    Char.isWhitespace).reverse

/-- The ChatWindow state consulted by sendMessage: the controlled composer
text, the in-flight flag, and the ids captured by the component. -/
structure ComposerState where
  newMessage : String
  sending : Bool
  conversationId : String
  currentUserId : String
deriving DecidableEq, Repr

/-- The row handed to the insert call on the messages table. -/
structure MessageInsert where
  conversation_id : String
  sender_id : String
  content : Option String
  attachments : Option (List Attachment)
deriving DecidableEq, Repr

/-- content = text !== undefined ? text : newMessage. -/
def resolveContent (st : ComposerState) (text : Option String) : String :=
  match text with
  | some t => t
  | none => st.newMessage

/-- ChatWindow sendMessage (dedupe variant): guard, then insert.  The
guard is the literal JS condition: content falsy-or-whitespace and no
attachments, or a send already in flight, or no conversation id (falsy
string modelled as the empty string).  The inserted row trims the content
and stores null for an empty trimmed content or an empty attachment list.
`insertOk` is the outcome of the awaited insert: on success the composer
text is cleared, on failure the error is logged and the text kept. -/
def sendMessage (st : ComposerState) (text : Option String)
    (attachments : List Attachment) (insertOk : Bool) :
    Option MessageInsert × ComposerState :=
  if (¬(resolveContent st text ≠ "" ∧ trimWS (resolveContent st text) ≠ "")
        ∧ attachments.length = 0)
      ∨ st.sending = true ∨ st.conversationId = "" then
    (none, st)
  else
    let row : MessageInsert :=
      { conversation_id := st.conversationId
        sender_id := st.currentUserId
        content :=
          if resolveContent st text ≠ "" ∧ trimWS (resolveContent st text) ≠ "" then
            some (trimWS (resolveContent st text))
          else none
        attachments := if attachments.length > 0 then some attachments else none }
    if insertOk then (some row, { st with newMessage := "" })
    else (some row, st)

/-- The file selected in the hidden input. -/
structure FileInfo where
  name : String
  type : String
  size : Nat
deriving DecidableEq, Repr

/-- ChatWindow handleFileUpload: no file selected is a no-op; an upload
error aborts before sendMessage is reached and alerts the user; on success
the public URL is resolved and the attachment is sent through sendMessage
with text undefined.  Returns (issued insert, new composer state, alert
message). -/
def handleFileUpload (st : ComposerState) (file : Option FileInfo)
    (uploadError : Option String) (publicUrl : String) (insertOk : Bool) :
    Option MessageInsert × ComposerState × Option String :=
  match file with
  | none => (none, st, none)
  | some f =>
    match uploadError with
    | some e => (none, st, some ("Upload failed: " ++ e))
    | none =>
      let attachment : Attachment := ⟨f.name, publicUrl, f.type, f.size⟩
      let r := sendMessage st none [attachment] insertOk
      (r.1, r.2, none)

/-! ### ChatWindow conversation effect (entering the Loading state) -/

/-- A tracked presence payload. -/
structure UserPresence where
  user_id : String
  online_at : Nat
deriving DecidableEq, Repr

/-- The per-conversation state the effect resets on selection or switch. -/
structure StreamState where
  messages : List Message
  presenceState : List (String × UserPresence)
  typingUsers : List String
  loading : Bool
deriving Repr

def setLoadingTrue (s : StreamState) : StreamState := { s with loading := true }

def clearMessages (s : StreamState) : StreamState := { s with messages := [] }

def clearPresence (s : StreamState) : StreamState := { s with presenceState := [] }

def clearTypingUsers (s : StreamState) : StreamState := { s with typingUsers := [] }

/-- The synchronous head of the conversation effect, in source order:
setLoading(true); setMessages([]); setPresenceState({}); setTypingUsers([]);
run before any awaited fetch result can arrive. -/
def enterConversation (s : StreamState) : StreamState :=
  clearTypingUsers (clearPresence (clearMessages (setLoadingTrue s)))

/-- Shape of the history fetch the effect issues next. -/
structure HistoryQuery where
  table : String
  conversation_id : String
  orderColumn : String
  ascending : Bool
deriving DecidableEq, Repr

/-- from messages select * eq conversation_id order created_at ascending. -/
def historyQuery (conversationId : String) : HistoryQuery :=
  ⟨"messages", conversationId, "created_at", true⟩

/-! ### Theorems -/

/-- A delivery step preserves distinctness of message ids. -/
lemma addMessageIfNew_nodup {prev : List Message} (msg : Message)
    (h : (prev.map Message.id).Nodup) :
    ((addMessageIfNew prev msg).map Message.id).Nodup := by
  unfold addMessageIfNew
  split
  · exact h
  · rename_i hnot
    have hperm :
        List.Perm ((List.insertionSort createdLe (prev ++ [msg])).map Message.id)
          ((prev ++ [msg]).map Message.id) :=
      (List.perm_insertionSort _ _).map _
    refine hperm.nodup_iff.mpr ?_
    simp only [List.any_eq_true, beq_iff_eq, not_exists, not_and] at hnot
    simpa [List.nodup_append] using ⟨h, hnot⟩

/-- A delivery step leaves the list sorted by created timestamp. -/
lemma addMessageIfNew_sorted {prev : List Message} (msg : Message)
    (h : prev.Sorted createdLe) :
    (addMessageIfNew prev msg).Sorted createdLe := by
  unfold addMessageIfNew
  split
  · exact h
  · exact List.sorted_insertionSort _ _

lemma deliverAll_inv (msgs : List Message) (acc : List Message)
    (h1 : (acc.map Message.id).Nodup) (h2 : acc.Sorted createdLe) :
    ((List.foldl addMessageIfNew acc msgs).map Message.id).Nodup ∧
      (List.foldl addMessageIfNew acc msgs).Sorted createdLe := by
  induction msgs generalizing acc with
  | nil => exact ⟨h1, h2⟩
  | cons m ms ih =>
    exact ih _ (addMessageIfNew_nodup m h1) (addMessageIfNew_sorted m h2)

/-- C1 counterexample: the claim asserts that the resulting list is sorted
by (created timestamp, id) ascending.  Delivering two messages with equal
created timestamps in reverse id order (id 2 first, then id 1) leaves them
in arrival order, because the handler's comparator looks only at the
created timestamp and the (stable) sort never consults ids. -/
theorem addMessageIfNew_claim_counterexample :
    sortedByCreatedId (deliverAll
      [⟨2, 0, 0, none, 5⟩, ⟨1, 0, 0, none, 5⟩]) = false := by decide

/-- C1 (amended): for every sequence of message-insert notifications
delivered to the controller in any order, the resulting list contains no
two messages with the same id (each incoming message is appended only if
its id is not already present) and is sorted by created timestamp
ascending; ties in created timestamp are left in arrival order (the
re-sort's comparator has no id tie-break). -/
theorem deliverAll_nodup_sorted_by_created (msgs : List Message) :
    ((deliverAll msgs).map Message.id).Nodup ∧
      (deliverAll msgs).Sorted createdLe :=
  deliverAll_inv msgs [] (by simp) (by simp)

/-- C2: when the flow reaches the existing-conversation search (the target
profile resolved and differs from self) and some conversation id has
exactly 2 matching participant rows, createChat reuses such a conversation
id and stops: no conversation row and no participant links are inserted. -/
theorem createChat_reuses_existing (currentUserId email : String) (b : Backend)
    (p : Profile) (parts : List ParticipantRow)
    (hemail : normalizeEmail email ≠ "")
    (hp : b.profile = .ok (some p))
    (hself : p.id ≠ currentUserId)
    (hparts : b.parts = .ok parts)
    (hex : ∃ cid ∈ convKeys parts, countRows parts cid = 2) :
    ∃ cid, countRows parts cid = 2 ∧
      createChat currentUserId email b = ⟨.ok cid, false, false⟩ := by
  have hsome : ((convKeys parts).find? (fun cid => countRows parts cid == 2)).isSome := by
    rw [List.find?_isSome]
    obtain ⟨cid, hmem, hc⟩ := hex
    exact ⟨cid, hmem, by simpa using hc⟩
  obtain ⟨cid, hfind⟩ := Option.isSome_iff_exists.mp hsome
  have hcount : countRows parts cid = 2 := by
    simpa using List.find?_some hfind
  refine ⟨cid, hcount, ?_⟩
  simp only [createChat, findExisting]
  rw [if_neg hemail, hp]
  simp only [hparts, hfind]
  rw [if_neg hself]

/-- C3: when the initial search finds nothing, a conversation row is
created, and the participant-links insert fails, createChat re-runs the
search; if a conversation with exactly 2 matching rows is then found its id
is returned (the fresh conversation id is discarded), otherwise the
original insert failure is surfaced. -/
theorem createChat_race_reconciliation (currentUserId email : String) (b : Backend)
    (p : Profile) (parts parts2 : List ParticipantRow) (convId insertErr : String)
    (hemail : normalizeEmail email ≠ "")
    (hp : b.profile = .ok (some p))
    (hself : p.id ≠ currentUserId)
    (hparts : b.parts = .ok parts)
    (hnone : findExisting parts = none)
    (hconv : b.convInsert = .ok (some convId))
    (hfail : b.partInsert = some insertErr)
    (hparts2 : b.parts2 = .ok parts2) :
    createChat currentUserId email b =
      (match findExisting parts2 with
       | some cid2 => ⟨.ok cid2, true, true⟩
       | none => ⟨.error insertErr, true, true⟩) := by
  simp only [createChat]
  rw [if_neg hemail, hp]
  simp only [hparts, hnone, hconv, hfail, hparts2]
  rw [if_neg hself]

/-- Witness for C2: user a starts a chat with b@x.com while conversation c1
already links both users; createChat returns c1 without inserting. -/
theorem createChat_reuses_existing_witness :
    ∃ cid, countRows [⟨"c1", "a"⟩, ⟨"c1", "b"⟩] cid = 2 ∧
      createChat "a" "b@x.com"
        ⟨.ok (some ⟨"b", "b@x.com"⟩), .ok [⟨"c1", "a"⟩, ⟨"c1", "b"⟩],
          .ok none, none, .ok []⟩ = ⟨.ok cid, false, false⟩ :=
  createChat_reuses_existing "a" "b@x.com" _ ⟨"b", "b@x.com"⟩ _
    (by decide) rfl (by decide) rfl ⟨"c1", by decide, by decide⟩

/-- Witness for C3: the participant insert fails after conversation new was
created, the re-run search finds c9, and c9 is returned. -/
theorem createChat_race_reconciliation_witness :
    createChat "a" "b@x.com"
      ⟨.ok (some ⟨"b", "b@x.com"⟩), .ok [], .ok (some "new"), some "dup",
        .ok [⟨"c9", "a"⟩, ⟨"c9", "b"⟩]⟩ =
      (match findExisting [⟨"c9", "a"⟩, ⟨"c9", "b"⟩] with
       | some cid2 => ⟨.ok cid2, true, true⟩
       | none => ⟨.error "dup", true, true⟩) :=
  createChat_race_reconciliation "a" "b@x.com" _ ⟨"b", "b@x.com"⟩ [] _ "new" "dup"
    (by decide) rfl (by decide) rfl rfl rfl rfl rfl

/-- A keystroke preserves the single-slot timer discipline. -/
lemma keystroke_timersOk (t : Nat) (s : TimerEnv) (h : timersOk s) :
    timersOk (keystroke t s) := by
  rcases h with h | ⟨i, ft, hr, ht⟩
  · cases hr : s.refSlot <;>
      simp [keystroke, fireDue, clearSlot, h, hr, timersOk]
  · by_cases hf : ft ≤ t <;>
      simp [keystroke, fireDue, clearSlot, hr, ht, hf, Nat.not_lt.mpr, timersOk]

lemma foldl_keystroke_timersOk (pre : List Nat) :
    timersOk (List.foldl (fun s t => keystroke t s) initEnv pre) := by
  suffices h : ∀ s, timersOk s →
      timersOk (List.foldl (fun s t => keystroke t s) s pre) from
    h initEnv (Or.inl rfl)
  induction pre with
  | nil => exact fun _ h => h
  | cons t ts ih => exact fun s h => ih _ (keystroke_timersOk t s h)

lemma timersOk_length {s : TimerEnv} (h : timersOk s) : s.timers.length ≤ 1 := by
  rcases h with h | ⟨i, ft, _, ht⟩
  · simp [h]
  · simp [ht]

/-- Running the timeline from the state right after a keystroke at time
`last` (one pending timer at last + 2000) emits exactly the quiet-period
broadcasts of `last :: ks`. -/
lemma runFrom_emitted (ks : List Nat) : ∀ (last n : Nat) (acc : List Nat),
    List.Chain' (fun a b => a < b) (last :: ks) →
    (flushAll (List.foldl (fun s t => keystroke t s)
        ⟨[(n, last + 2000)], some n, n + 1, acc⟩ ks)).emitted
      = acc ++ quietEmissions (last :: ks) := by
  induction ks with
  | nil =>
    intro last n acc _
    simp [flushAll, quietEmissions]
  | cons t ts ih =>
    intro last n acc hch
    rw [List.chain'_cons] at hch
    by_cases hf : last + 2000 ≤ t
    · have hstep : keystroke t ⟨[(n, last + 2000)], some n, n + 1, acc⟩ =
          ⟨[(n + 1, t + 2000)], some (n + 1), n + 2, acc ++ [last + 2000]⟩ := by
        simp [keystroke, fireDue, clearSlot, hf, Nat.not_lt.mpr hf]
      rw [List.foldl_cons, hstep, ih t (n + 1) (acc ++ [last + 2000]) hch.2]
      simp [quietEmissions, hf]
    · have hstep : keystroke t ⟨[(n, last + 2000)], some n, n + 1, acc⟩ =
          ⟨[(n + 1, t + 2000)], some (n + 1), n + 2, acc⟩ := by
        simp [keystroke, fireDue, clearSlot, hf, Nat.lt_of_not_le hf]
      rw [List.foldl_cons, hstep, ih t (n + 1) acc hch.2]
      simp [quietEmissions, hf]

/-- C4: for every strictly increasing sequence of keystroke times, the
typing=false broadcasts emitted by the timer mechanism are exactly one per
quiet period of at least 2000 ms after the last keystroke of the period
(2000 ms after it); and the pending typing=false timeouts never stack: in
every state reachable by keystrokes there is at most one pending timer. -/
theorem handleTyping_debounce (ks : List Nat)
    (h : List.Chain' (fun a b => a < b) ks) :
    (runTyping ks).emitted = quietEmissions ks ∧
      ∀ pre : List Nat,
        (List.foldl (fun s t => keystroke t s) initEnv pre).timers.length ≤ 1 := by
  constructor
  · cases ks with
    | nil => simp [runTyping, flushAll, initEnv, quietEmissions]
    | cons t ts =>
      have hstep : keystroke t initEnv = ⟨[(0, t + 2000)], some 0, 1, []⟩ := by
        simp [keystroke, fireDue, clearSlot, initEnv]
      rw [runTyping, List.foldl_cons, hstep]
      exact runFrom_emitted ts t 0 [] h
  · exact fun pre => timersOk_length (foldl_keystroke_timersOk pre)

/-- Witness for C4: keystrokes at 0 ms, 1000 ms and 4000 ms.  The 0 ms
timer is cancelled (gap 1000 < 2000), the 1000 ms one fires at 3000 (gap
3000 ≥ 2000), the last fires at 6000. -/
theorem handleTyping_debounce_witness :
    (runTyping [0, 1000, 4000]).emitted = quietEmissions [0, 1000, 4000] ∧
      ∀ pre : List Nat,
        (List.foldl (fun s t => keystroke t s) initEnv pre).timers.length ≤ 1 :=
  handleTyping_debounce [0, 1000, 4000]
    (by simp [List.chain'_cons, List.chain'_singleton])

/-- Handling any typing broadcast cannot introduce the current user into
the typing set. -/
lemma onTypingBroadcast_preserves_not_self (cur : String) (acc : List String)
    (ev : TypingEvent) (h : cur ∉ acc) : cur ∉ onTypingBroadcast cur acc ev := by
  unfold onTypingBroadcast
  split
  · exact h
  · rename_i hguard
    have huid : ev.user_id ≠ cur := fun hc => hguard (Or.inr hc)
    split
    · intro hmem
      rcases List.mem_append.mp hmem with hm | hm
      · exact h (List.mem_of_mem_filter hm)
      · have hcu : cur = ev.user_id := by simpa using hm
        exact huid hcu.symm
    · exact fun hmem => h (List.mem_of_mem_filter hmem)

lemma foldl_typing_not_self (cur : String) (evs : List TypingEvent) :
    ∀ acc : List String, cur ∉ acc →
      cur ∉ List.foldl (onTypingBroadcast cur) acc evs := by
  induction evs with
  | nil => exact fun _ h => h
  | cons e es ih =>
    exact fun acc hacc => ih _ (onTypingBroadcast_preserves_not_self cur acc e hacc)

/-- C5: a typing broadcast whose sender id equals the current user id
leaves the typing set unchanged, and after any sequence of broadcasts the
current user id is absent from the set built from the initial empty set. -/
theorem typing_self_ignored (cur : String) (prev : List String)
    (ev : TypingEvent) (evs : List TypingEvent) (h : ev.user_id = cur) :
    onTypingBroadcast cur prev ev = prev ∧
      cur ∉ List.foldl (onTypingBroadcast cur) [] evs := by
  refine ⟨?_, foldl_typing_not_self cur evs [] (by simp)⟩
  simp [onTypingBroadcast, h]

/-- Witness for C5: user me receives its own typing broadcast (ignored)
and, over a sequence containing a self broadcast, never enters the set. -/
theorem typing_self_ignored_witness :
    onTypingBroadcast "me" ["u1"] ⟨"me", true⟩ = ["u1"] ∧
      "me" ∉ List.foldl (onTypingBroadcast "me") []
        [⟨"me", true⟩, ⟨"u2", true⟩] :=
  typing_self_ignored "me" ["u1"] ⟨"me", true⟩ [⟨"me", true⟩, ⟨"u2", true⟩] rfl

/-- Handling a typing broadcast preserves distinctness of the set. -/
lemma onTypingBroadcast_nodup (cur : String) (acc : List String)
    (ev : TypingEvent) (h : acc.Nodup) : (onTypingBroadcast cur acc ev).Nodup := by
  unfold onTypingBroadcast
  split
  · exact h
  · split
    · refine List.Nodup.append (h.filter _) (List.nodup_singleton _) ?_
      intro x hx hy
      have hne : x ≠ ev.user_id := by simpa using List.of_mem_filter hx
      exact hne (by simpa using hy)
    · exact h.filter _

/-- C9: the typing-identity set never contains duplicates: starting from
the empty set, after any sequence of typing broadcasts each identity
appears at most once (the handler removes the sender id before appending
it). -/
theorem typingUsers_nodup (cur : String) (evs : List TypingEvent) :
    (List.foldl (onTypingBroadcast cur) [] evs).Nodup := by
  suffices h : ∀ acc : List String, acc.Nodup →
      (List.foldl (onTypingBroadcast cur) acc evs).Nodup from h [] (by simp)
  induction evs with
  | nil => exact fun _ h => h
  | cons e es ih =>
    exact fun acc hacc => ih _ (onTypingBroadcast_nodup cur acc e hacc)

/-- An empty string trims to the empty string. -/
lemma trimWS_empty : trimWS "" = "" := rfl

lemma ne_empty_of_trimWS_ne_empty {s : String} (h : trimWS s ≠ "") : s ≠ "" := by
  intro hs
  subst hs
  exact h trimWS_empty

/-- C6: a send whose resolved text trims to the empty string (empty or
whitespace-only) and whose attachment list is empty is rejected locally:
no insert row is issued and the composer state is unchanged. -/
theorem sendMessage_empty_rejected (st : ComposerState) (text : Option String)
    (attachments : List Attachment) (insertOk : Bool)
    (hc : trimWS (resolveContent st text) = "")
    (ha : attachments = []) :
    sendMessage st text attachments insertOk = (none, st) := by
  unfold sendMessage
  rw [if_pos]
  exact Or.inl ⟨fun hcon => hcon.2 hc, by rw [ha]; rfl⟩

/-- Witness for C6: sending whitespace-only text with no attachments from
an idle composer changes nothing and issues no insert. -/
theorem sendMessage_empty_rejected_witness :
    sendMessage ⟨"", false, "conv1", "me"⟩ (some "   ") [] true =
      (none, ⟨"", false, "conv1", "me"⟩) :=
  sendMessage_empty_rejected ⟨"", false, "conv1", "me"⟩ (some "   ") [] true
    (by decide) rfl

/-- C10: a send that passes the local guard (trimmed text nonempty or
attachments present, no send in flight, a conversation selected) issues
exactly one insert row whose content is the trimmed text, stored as null
when the trimmed text is empty, and whose attachments field is null when
the attachment list is empty. -/
theorem sendMessage_insert_shape (st : ComposerState) (text : Option String)
    (attachments : List Attachment) (insertOk : Bool)
    (hsend : st.sending = false) (hcid : st.conversationId ≠ "")
    (hpass : trimWS (resolveContent st text) ≠ "" ∨ attachments ≠ []) :
    (sendMessage st text attachments insertOk).1 = some
      { conversation_id := st.conversationId
        sender_id := st.currentUserId
        content :=
          if trimWS (resolveContent st text) = "" then none
          else some (trimWS (resolveContent st text))
        attachments := if attachments = [] then none else some attachments } := by
  have hguard : ¬ ((¬(resolveContent st text ≠ "" ∧ trimWS (resolveContent st text) ≠ "")
        ∧ attachments.length = 0)
      ∨ st.sending = true ∨ st.conversationId = "") := by
    rintro (⟨hng, hlen⟩ | hs | hcv)
    · rcases hpass with hp | hp
      · exact hng ⟨ne_empty_of_trimWS_ne_empty hp, hp⟩
      · exact hp (List.length_eq_zero.mp hlen)
    · rw [hsend] at hs; cases hs
    · exact hcid hcv
  unfold sendMessage
  rw [if_neg hguard]
  have hrow : (if resolveContent st text ≠ "" ∧ trimWS (resolveContent st text) ≠ "" then
        some (trimWS (resolveContent st text)) else none) =
      (if trimWS (resolveContent st text) = "" then none
        else some (trimWS (resolveContent st text))) := by
    by_cases ht : trimWS (resolveContent st text) = ""
    · simp [ht]
    · simp [ht, ne_empty_of_trimWS_ne_empty ht]
  have hatt : (if attachments.length > 0 then some attachments else none) =
      (if attachments = [] then none else some attachments) := by
    cases attachments <;> simp
  cases insertOk <;> simp [hrow, hatt]

/-- Witness for C10: sending text with surrounding whitespace and one
attachment inserts the trimmed content and the attachment list. -/
theorem sendMessage_insert_shape_witness :
    (sendMessage ⟨" hi ", false, "conv1", "me"⟩ none
        [⟨"a.png", "http://u", "image/png", 7⟩] true).1 = some
      { conversation_id := "conv1"
        sender_id := "me"
        content :=
          if trimWS (resolveContent ⟨" hi ", false, "conv1", "me"⟩ none) = "" then none
          else some (trimWS (resolveContent ⟨" hi ", false, "conv1", "me"⟩ none))
        attachments :=
          if ([⟨"a.png", "http://u", "image/png", 7⟩] : List Attachment) = [] then none
          else some [⟨"a.png", "http://u", "image/png", 7⟩] } :=
  sendMessage_insert_shape ⟨" hi ", false, "conv1", "me"⟩ none
    [⟨"a.png", "http://u", "image/png", 7⟩] true rfl (by decide)
    (Or.inl (by decide))

/-- C7: when the object-store upload fails, the whole send is aborted:
no insert row is issued, the error is surfaced to the user, and the
composer state (including its text input) is left unchanged. -/
theorem handleFileUpload_abort_on_upload_error (st : ComposerState)
    (f : FileInfo) (e : String) (publicUrl : String) (insertOk : Bool) :
    (handleFileUpload st (some f) (some e) publicUrl insertOk).1 = none ∧
      (handleFileUpload st (some f) (some e) publicUrl insertOk).2.1 = st ∧
      (handleFileUpload st (some f) (some e) publicUrl insertOk).2.2 =
        some ("Upload failed: " ++ e) :=
  ⟨rfl, rfl, rfl⟩

/-- C8: selecting or switching a conversation resets all three pieces of
per-conversation state (message list, presence map, typing set) before the
new conversation's history fetch, which is ordered by created_at
ascending; so the new conversation starts from an empty message list. -/
theorem enterConversation_clears_state (s : StreamState) (cid : String) :
    (enterConversation s).messages = [] ∧
      (enterConversation s).presenceState = [] ∧
      (enterConversation s).typingUsers = [] ∧
      (enterConversation s).loading = true ∧
      (historyQuery cid).table = "messages" ∧
      (historyQuery cid).conversation_id = cid ∧
      (historyQuery cid).orderColumn = "created_at" ∧
      (historyQuery cid).ascending = true := by
  simp [enterConversation, setLoadingTrue, clearMessages, clearPresence,
    clearTypingUsers, historyQuery]

end ChatApp
